import Mathlib

/-
Verification of the rupture-sampling and hazard-aggregation core of the
oq-engine repository (openquake/hazardlib/source/base.py,
openquake/calculators/ucerf_classical.py, openquake/hazardlib/gsim/multi.py).

The numeric type of the Python code (IEEE doubles) is modelled by an
arbitrary linear ordered field K; the transcendental functions used by the
code (numpy.exp, numpy.log, scipy.special.loggamma) are modelled by an
abstract record of functions SciOps, since the claims under scrutiny only
relate the values the code computes as symbolic expressions in those
functions.  The process-wide numpy random state is modelled by an explicit
state type S threaded through the sampler, with the numpy entry points
(seed, poisson, random, choice, and the rupture-level occurrence sampler)
given as an abstract deterministic record RNG: numpy generators are
deterministic functions of the seeded state, and the length contracts
(poisson on a vector of n rates yields n draws, random(n) yields n draws)
are part of the record.
-/

namespace OQ

variable (K : Type) (S : Type)

/-- Poisson temporal occurrence model: carries the time span in years
(tom.time_span in the source). -/
structure PoissonTOM where
  time_span : K

/-- A parametric probabilistic rupture as consumed by the fault branch of
sample_ruptures_poissonian: only its occurrence_rate attribute is read
there. -/
structure PRupture where
  occurrence_rate : K

/-- A nodal plane from the nodal plane distribution; the multipoint branch
reads np.rake when building the rupture. -/
structure NodalPlane where
  strike : K
  dip : K
  rake : K

/-- A geographic point (openquake.hazardlib.geo.Point). -/
structure GeoPoint where
  longitude : K
  latitude : K
  depth : K

/-- A nonparametric (time-dependent) rupture: it carries its own discrete
distribution of occurrence counts, read through
proba_number_of_occurrences; the drawing of the per-repeat occurrence
vector (sample_number_of_occurrences) goes through the random state and is
part of the RNG record below. -/
structure NPRupture where
  proba_number_of_occurrences : Nat → K

/-- The transcendental functions used by the sampler:
numpy.exp, numpy.log and scipy.special.loggamma. -/
structure SciOps where
  expF : K → K
  logF : K → K
  loggammaF : K → K

/-- The process-wide numpy random machinery, modelled as a deterministic
state machine: seedFn is numpy.random.seed (returns the reset state),
poissonList is numpy.random.poisson on a vector of rates, randomList is
numpy.random.random(n), choiceFn is numpy.random.choice(n), and sampleOcc
is rup.sample_number_of_occurrences(n) for a nonparametric rupture (which
draws from the same global state).  The length laws are numpy guarantees:
a vectorized draw returns one value per input element. -/
structure RNG where
  seedFn : Nat → S
  poissonList : S → List K → List Nat × S
  randomList : S → Nat → List K × S
  choiceFn : S → Nat → Nat × S
  sampleOcc : S → NPRupture K → Nat → List Nat × S
  poisson_len : ∀ s lam, (poissonList s lam).1.length = lam.length
  random_len : ∀ s n, (randomList s n).1.length = n
  sampleOcc_len : ∀ s r n, (sampleOcc s r n).1.length = n
  choice_lt : ∀ s n, 0 < n → (choiceFn s n).1 < n

variable {K S}

/-- The exact Poisson point probability computed by both branches of
sample_ruptures_poissonian:
exp(k * log L - L - loggamma(k + 1)) for effective rate L and drawn
occurrence count k. -/
def pointProba [LinearOrderedField K] (ops : SciOps K) (L : K) (k : Nat) : K :=
  ops.expF ((k : K) * ops.logF L - L - ops.loggammaF ((k : K) + 1))

/-- The ruptures emitted by the sampler: fault-branch parametric ruptures,
multipoint-branch ruptures built on the fly (ParametricProbabilisticRupture
with magnitude, rake, tectonic region type, hypocenter, surface, rate and
temporal occurrence model), and nonparametric ruptures. -/
inductive Emitted (K : Type) where
  | par (r : PRupture K)
  | pt (mag : K) (rake : K) (trt : Nat) (hc : GeoPoint K) (surf : Nat)
      (rate : K) (tom : PoissonTOM K)
  | np (r : NPRupture K)

/-- The occurrence rate carried by an emitted rupture: the fault rupture
occurrence_rate, or the combination rate the multipoint rupture was tagged
with.  Unused for nonparametric ruptures. -/
def Emitted.rateOf [LinearOrderedField K] : Emitted K → K
  | .par r => r.occurrence_rate
  | .pt _ _ _ _ _ rate _ => rate
  | .np _ => 0

/-- One (magnitude, nodal plane, hypocentral depth) sub-source of a
(multi)point or area source, as enumerated by the multipoint branch of
sample_ruptures_poissonian: its annual occurrence rates come through
get_annual_occurrence_rates, and it provides the nodal plane and
hypocenter distributions, a location and the rupture-surface builder
_get_rupture_surface (kept abstract, returning a surface token). -/
structure PointSub (K : Type) where
  mfd_rates : List (K × K)
  scaling_rate : K
  sub_min_mag : K
  npd : List (K × NodalPlane K)
  hdd : List (K × K)
  latitude : K
  longitude : K
  trt : Nat
  getSurface : K → NodalPlane K → GeoPoint K → Nat

/-- ParametricSeismicSource.get_annual_occurrence_rates: pairs
(magnitude, rate * scaling_rate) from the MFD, filtered by
rate strictly above min_rate (when min_rate is given) and magnitude at
least the source min_mag. -/
def get_annual_occurrence_rates [LinearOrderedField K]
    (src : PointSub K) (min_rate : Option K) : List (K × K) :=
  (src.mfd_rates.filter (fun p =>
      (match min_rate with
       | none => true
       | some mr => decide (mr < p.2)) && decide (src.sub_min_mag ≤ p.1))
    ).map (fun p => (p.1, p.2 * src.scaling_rate))

/-- One entry of the rup_args list assembled by the multipoint branch:
(mag_occ_rate, np_prob, hc_prob, mag, np, hc_depth, src). -/
structure RupArg (K : Type) where
  mag_occ_rate : K
  np_prob : K
  hc_prob : K
  mag : K
  np : NodalPlane K
  hc_depth : K
  sub : PointSub K

/-- The combination rate appended to the rates list by the multipoint
branch: mag_occ_rate * np_prob * hc_prob. -/
def RupArg.rate [LinearOrderedField K] (a : RupArg K) : K :=
  a.mag_occ_rate * a.np_prob * a.hc_prob

/-- The triple loop of the multipoint branch of
sample_ruptures_poissonian: for each sub-source, each magnitude with
annual rate (skipping magnitudes below the parent min_mag), each nodal
plane and each hypocentral depth, one RupArg. -/
def buildRupArgs [LinearOrderedField K] (min_mag : K) (subs : List (PointSub K)) :
    List (RupArg K) :=
  subs.flatMap (fun src =>
    ((get_annual_occurrence_rates src (some 0)).filter
        (fun mr => decide (¬ mr.1 < min_mag))).flatMap (fun mr =>
      src.npd.flatMap (fun npp =>
        src.hdd.map (fun hcp =>
          { mag_occ_rate := mr.2, np_prob := npp.1, hc_prob := hcp.1,
            mag := mr.1, np := npp.2, hc_depth := hcp.2, sub := src }))))

/-- The rupture materialized by the multipoint branch for a surviving
combination: hypocenter at the sub-source location at the drawn depth,
surface from _get_rupture_surface, tagged with the combination rate and
the shared temporal occurrence model. -/
def mkPtRupture [LinearOrderedField K] (tom : PoissonTOM K) (a : RupArg K)
    (rate : K) : Emitted K :=
  let hc : GeoPoint K :=
    { latitude := a.sub.latitude, longitude := a.sub.longitude,
      depth := a.hc_depth }
  .pt a.mag a.np.rake a.sub.trt hc (a.sub.getSurface a.mag a.np hc) rate tom

/-- The unfiltered draw list of the fault branch: one triple
(rupture, drawn count, point probability) per rupture, in source order,
with lambda = rate * time_span * eff_num_ses and the point probability
computed by the Poisson formula. -/
def faultDraws [LinearOrderedField K] (g : RNG K S) (ops : SciOps K)
    (time_span : K) (eff_num_ses : Nat) (ruptures : List (PRupture K))
    (s : S) : List (Emitted K × Nat × K) × S :=
  let lam := ruptures.map
    (fun r => r.occurrence_rate * time_span * (eff_num_ses : K))
  let po := g.poissonList s lam
  let probas := List.zipWith (fun k L => pointProba ops L k) po.1 lam
  ((ruptures.zip (po.1.zip probas)).map
      (fun t => (Emitted.par t.1, t.2.1, t.2.2)), po.2)

/-- The fault branch of sample_ruptures_poissonian: draw occurrence counts
from the Poisson law at rates * time_span * eff_num_ses, compute the point
probabilities, and yield only the triples with a nonzero count. -/
def poissonFault [LinearOrderedField K] (g : RNG K S) (ops : SciOps K)
    (time_span : K) (eff_num_ses : Nat) (ruptures : List (PRupture K))
    (s : S) : List (Emitted K × Nat × K) × S :=
  let d := faultDraws g ops time_span eff_num_ses ruptures s
  (d.1.filter (fun t => t.2.1 ≠ 0), d.2)

/-- The unfiltered draw list of the multipoint branch: one quadruple
(drawn count, rup_args entry, combination rate, point probability) per
enumerated combination, with eff_rates = rates * time_span * eff_num_ses. -/
def multiDraws [LinearOrderedField K] (g : RNG K S) (ops : SciOps K)
    (time_span : K) (eff_num_ses : Nat) (min_mag : K)
    (subs : List (PointSub K)) (s : S) :
    List (Nat × RupArg K × K × K) × S :=
  let args := buildRupArgs min_mag subs
  let rates := args.map (fun a => a.rate)
  let eff_rates := rates.map (fun r => r * time_span * (eff_num_ses : K))
  let po := g.poissonList s eff_rates
  let probas := List.zipWith (fun k L => pointProba ops L k) po.1 eff_rates
  (po.1.zip (args.zip (rates.zip probas)), po.2)

/-- The multipoint branch of sample_ruptures_poissonian: for each
combination with a nonzero drawn count, materialize the rupture and yield
it with the count and the point probability. -/
def poissonMulti [LinearOrderedField K] (g : RNG K S) (ops : SciOps K)
    (tom : PoissonTOM K) (eff_num_ses : Nat) (min_mag : K)
    (subs : List (PointSub K)) (s : S) : List (Emitted K × Nat × K) × S :=
  let d := multiDraws g ops tom.time_span eff_num_ses min_mag subs s
  (d.1.filterMap (fun t =>
      if t.1 ≠ 0 then some (mkPtRupture tom t.2.1 t.2.2.1, t.1, t.2.2.2)
      else none), d.2)

/-- The mutex thinning step of the nonparametric branch:
occurs *= (aux < mutex_weight), elementwise, so a repeat keeps its drawn
occurrence exactly when its uniform draw is strictly below the mutex
weight and is zeroed otherwise. -/
def mutexThin [LinearOrderedField K] (w : K) (occurs : List Nat)
    (aux : List K) : List Nat :=
  List.zipWith (fun o a => if a < w then o else 0) occurs aux

/-- The per-rupture occurrence vector of the nonparametric branch, after
the optional mutex thinning: draw the per-repeat occurrence vector of the
rupture, and when the mutex weight is below one draw eff_num_ses uniforms
(occurs *= (aux < mutex_weight)); returns the vector and the advanced
random state. -/
def npThinned [LinearOrderedField K] (g : RNG K S) (eff_num_ses : Nat)
    (w : K) (r : NPRupture K) (s : S) : List Nat × S :=
  let oc := g.sampleOcc s r eff_num_ses
  if w < 1 then
    let aux := g.randomList oc.2 eff_num_ses
    (mutexThin w oc.1 aux.1, aux.2)
  else (oc.1, oc.2)

/-- The unfiltered per-rupture results of the nonparametric branch: for
each rupture, the (possibly thinned) occurrence vector is summed and
recorded as (rupture, summed count, proba_number_of_occurrences of the
sum). -/
def npDraws [LinearOrderedField K] (g : RNG K S) (eff_num_ses : Nat)
    (w : K) : List (NPRupture K) → S → List (NPRupture K × Nat × K) × S
  | [], s => ([], s)
  | r :: rs, s =>
    let tv := npThinned g eff_num_ses w r s
    let num_occ := tv.1.sum
    let rest := npDraws g eff_num_ses w rs tv.2
    ((r, num_occ, r.proba_number_of_occurrences num_occ) :: rest.1, rest.2)

/-- The nonparametric branch of _sample_ruptures: same state threading as
npDraws, but a rupture is yielded only when its summed occurrence count is
nonzero. -/
def npLoop [LinearOrderedField K] (g : RNG K S) (eff_num_ses : Nat)
    (w : K) : List (NPRupture K) → S → List (Emitted K × Nat × K) × S
  | [], s => ([], s)
  | r :: rs, s =>
    let tv := npThinned g eff_num_ses w r s
    let num_occ := tv.1.sum
    let rest := npLoop g eff_num_ses w rs tv.2
    (if num_occ ≠ 0 then
        (Emitted.np r, num_occ,
          r.proba_number_of_occurrences num_occ) :: rest.1
      else rest.1, rest.2)

/-- The nonparametric branch without the mutex thinning step, used to
express that a mutex weight of one (or an undeclared mutex weight, whose
getattr default is one) leaves the drawn occurrences unchanged. -/
def npDrawsPlain [LinearOrderedField K] (g : RNG K S) (eff_num_ses : Nat) :
    List (NPRupture K) → S → List (NPRupture K × Nat × K) × S
  | [], s => ([], s)
  | r :: rs, s =>
    let oc := g.sampleOcc s r eff_num_ses
    let num_occ := oc.1.sum
    let rest := npDrawsPlain g eff_num_ses rs oc.2
    ((r, num_occ, r.proba_number_of_occurrences num_occ) :: rest.1, rest.2)

/-- The generative payload of a source, a closed set of variants standing
for the Python attribute dispatch of _sample_ruptures: a source with a
temporal_occurrence_model and no nodal_plane_distribution (fault), one
with both (multipoint or area), or a nonparametric source (no temporal
occurrence model) with a mutex weight (getattr default 1). -/
inductive SrcKind (K : Type) where
  | fault (tom : PoissonTOM K) (ruptures : List (PRupture K))
  | multi (tom : PoissonTOM K) (subs : List (PointSub K))
  | nonparam (data : List (NPRupture K)) (mutex_weight : K)

/-- A seismic source as seen by the sampler: serial id (the sampling
seed), source group ids, the minimum magnitude cutoff and the generative
payload. -/
structure Src (K : Type) where
  serial : Nat
  grp_ids : List Nat
  min_mag : K
  kind : SrcKind K

/-- BaseSeismicSource._sample_ruptures: dispatch on the presence of a
temporal occurrence model (Poissonian versus nonparametric), and inside
the Poissonian case on the presence of a nodal plane distribution. -/
def sampleRupturesInner [LinearOrderedField K] (g : RNG K S) (ops : SciOps K)
    (eff_num_ses : Nat) (src : Src K) (s : S) :
    List (Emitted K × Nat × K) × S :=
  match src.kind with
  | .fault tom ruptures =>
      poissonFault g ops tom.time_span eff_num_ses ruptures s
  | .multi tom subs =>
      poissonMulti g ops tom eff_num_ses src.min_mag subs s
  | .nonparam data w => npLoop g eff_num_ses w data s

/-- The group loop of BaseSeismicSource.sample_ruptures: one call of
_sample_ruptures per source group id, threading the random state, each
yielded triple paired with its group id. -/
def sampleGroups [LinearOrderedField K] (g : RNG K S) (ops : SciOps K)
    (eff_num_ses : Nat) (src : Src K) :
    List Nat → S → List (Nat × Emitted K × Nat × K) × S
  | [], s => ([], s)
  | grp :: rest, s =>
    let ys := sampleRupturesInner g ops eff_num_ses src s
    let zs := sampleGroups g ops eff_num_ses src rest ys.2
    (ys.1.map (fun y => (grp, y)) ++ zs.1, zs.2)

/-- The running rup_id counter of sample_ruptures: the first yielded
rupture gets id n, the next n+1, and so on. -/
def withIds {A : Type} : Nat → List A → List (Nat × A)
  | _, [] => []
  | n, a :: as => (n, a) :: withIds (n + 1) as

/-- BaseSeismicSource.sample_ruptures: reseed the numpy random state from
the source serial (discarding whatever state the process was in), run
_sample_ruptures once per group id, and tag the yielded ruptures with
consecutive ids starting at the serial. -/
def sample_ruptures [LinearOrderedField K] (g : RNG K S) (ops : SciOps K)
    (eff_num_ses : Nat) (src : Src K) (_s0 : S) :
    List (Nat × Nat × Emitted K × Nat × K) :=
  let s := g.seedFn src.serial
  let ys := sampleGroups g ops eff_num_ses src src.grp_ids s
  withIds src.serial ys.1

/-- A parametric seismic source as seen by
ParametricSeismicSource.get_one_rupture: the lazily generated rupture
sequence (iter_ruptures), the abstract rupture counter count_ruptures
(whose documented contract is to agree with the length of iter_ruptures),
and the engine-assigned seed. -/
structure ParametricSrc (K : Type) where
  ruptures : List (PRupture K)
  count_ruptures : Nat
  seed : Nat

/-- The assertion message of ParametricSeismicSource.get_one_rupture. -/
def mutexMsg : String :=
  "Mutually exclusive ruptures are admitted only in case of" ++
  " non-parametric sources"

/-- ParametricSeismicSource.get_one_rupture: the mutex case is refused by
an assertion; otherwise the numpy state is seeded from the source seed, an
index is drawn by numpy.random.choice(count_ruptures), and the rupture at
that index of iter_ruptures is returned (none when the enumeration ends
before the index, mirroring the fall-through return of the Python loop). -/
def get_one_rupture [LinearOrderedField K] (g : RNG K S)
    (src : ParametricSrc K) (rupture_mutex : Bool) :
    Except String (Option (PRupture K)) :=
  if rupture_mutex then .error mutexMsg
  else
    let num_ruptures := src.count_ruptures
    let s := g.seedFn src.seed
    let idx := (g.choiceFn s num_ruptures).1
    .ok (src.ruptures.get? idx)

/-- Modelled from the spec: the elementwise merge rule of ProbabilityMap
(hazardlib.probability_map, not part of the given sources; only its call
site pmap |= upmap is): the complementary-probability product rule
combined = 1 - (1 - a) * (1 - b). -/
def mergePoe [LinearOrderedField K] (a b : K) : K :=
  1 - (1 - a) * (1 - b)

/-- Modelled from the spec: a ProbabilityMap array viewed as a total
function from site index and flattened (level, gsim) index to exceedance
probability, with absent entries reading as the identity value zero. -/
def PoeArray (K : Type) : Type := Nat → Nat → K

/-- Modelled from the spec: the merge of two ProbabilityMap arrays is the
elementwise complementary-probability product rule; an absent key reads
as zero on either side, so the union-of-keys side table merge is the
pointwise merge of the total functions. -/
def mergeMap [LinearOrderedField K] (A B : PoeArray K) : PoeArray K :=
  fun site lvl => mergePoe (A site lvl) (B site lvl)

/-- Modelled from the spec: a freshly constructed
ProbabilityMap(num_levels, num_gsims) holds exceedance probability zero
everywhere. -/
def zeroPoeArray (K : Type) [LinearOrderedField K] : PoeArray K :=
  fun _ _ => 0

/-- The ProbabilityMap record returned by the ucerf chunk tasks: the
probability array plus the auxiliary accounting set by
_hazard_curves_per_rupture_subset (eff_ruptures per group, grp_id, timing
samples). -/
structure PMap (K : Type) where
  poes : PoeArray K
  eff_ruptures : List (Nat × Nat)
  grp_id : Nat
  calc_times : List (Nat × Nat × K)

/-- The UCERF source-like object as consumed by the chunk task: its group
id, source id, and the site filtering collaborator
filter_sites_by_distance_from_rupture_set, which maps (rupture set
indices, site collection, max distance) to the filtered indices and
sites. -/
structure UcerfSrc (K : Type) where
  src_group_id : Nat
  source_id : Nat
  filterFn : List Nat → List Nat → K → List Nat × List Nat

/-- _hazard_curves_per_rupture_subset: build a fresh ProbabilityMap, set
its group id, record the effective rupture count of the group as the
length of the given rupture index subset before any probability is
computed, evaluate the ground motion layer (poe_map, abstracted as
poeMapFn) on the subset and sites, fold it into the fresh map with the
merge rule, and append one timing sample. -/
def hazard_curves_per_rupture_subset [LinearOrderedField K]
    (poeMapFn : List Nat → List Nat → PoeArray K) (dur : K)
    (rupset_idx : List Nat) (src : UcerfSrc K) (sites : List Nat) :
    PMap K :=
  let pmap0 := zeroPoeArray K
  let num_ruptures := rupset_idx.length
  let upmap := poeMapFn rupset_idx sites
  { poes := mergeMap pmap0 upmap,
    eff_ruptures := [(src.src_group_id, num_ruptures)],
    grp_id := src.src_group_id,
    calc_times := [(src.source_id, sites.length, dur)] }

/-- The identity ProbabilityMap built by the empty-site branch of
ucerf_classical_hazard_by_rupture_set: zero probabilities everywhere,
zero effective ruptures for the source group, empty timing list. -/
def emptyPMapFor (K : Type) [LinearOrderedField K] (src : UcerfSrc K) :
    PMap K :=
  { poes := zeroPoeArray K,
    eff_ruptures := [(src.src_group_id, 0)],
    grp_id := src.src_group_id,
    calc_times := [] }

/-- ucerf_classical_hazard_by_rupture_set: filter the rupture set and the
sites by distance; with surviving sites run the per-subset hazard
computation on the filtered subset, otherwise return the identity map
tagged with zero effective ruptures without touching the ground motion
layer. -/
def ucerf_classical_hazard_by_rupture_set [LinearOrderedField K]
    (poeMapFn : List Nat → List Nat → PoeArray K) (dur : K)
    (rupset_idx : List Nat) (src : UcerfSrc K) (sitecol : List Nat)
    (max_dist : K) : PMap K :=
  let fr := src.filterFn rupset_idx sitecol max_dist
  if fr.2.length ≠ 0 then
    hazard_curves_per_rupture_subset poeMapFn dur fr.1 src fr.2
  else
    emptyPMapFor K src

/-- A UCERF source node as read by convert_UCERFSource: the attributes the
conversion touches.  startDate and investigationTime are optional node
attributes. -/
structure UcerfNode (K : Type) where
  filename : String
  node_id : Nat
  startDate : Option String
  investigationTime : Option K
  minMag : K

/-- The control object built by convert_UCERFSource. -/
structure UCERFControl (K : Type) where
  source_file : String
  control_id : Nat
  time_span : K
  start_date : Option String
  min_mag : K

/-- The message of the ValueError raised by convert_UCERFSource on an
investigation time mismatch. -/
def invTimeMsg : String :=
  "Source investigation time is not equal to configuration" ++
  " investigation time"

/-- convert_UCERFSource: when the node carries both a startDate and an
investigationTime attribute, the declared investigation time must equal
the configured temporal occurrence model time span, else a ValueError is
raised; without both attributes the start date is None and no check is
performed.  The returned control object carries the configured time span. -/
def convert_UCERFSource [LinearOrderedField K] (tom_time_span : K)
    (dirname : String) (node : UcerfNode K) :
    Except String (UCERFControl K) :=
  let source_file := dirname ++ "/" ++ node.filename
  match node.startDate, node.investigationTime with
  | some sd, some inv_time =>
      if inv_time ≠ tom_time_span then .error invTimeMsg
      else
        .ok { source_file := source_file, control_id := node.node_id,
              time_span := tom_time_span, start_date := some sd,
              min_mag := node.minMag }
  | _, _ =>
      .ok { source_file := source_file, control_id := node.node_id,
            time_span := tom_time_span, start_date := none,
            min_mag := node.minMag }

/-- Whether an Except value is a normal (non error) result. -/
def isOkE {E A : Type} : Except E A → Bool
  | .ok _ => true
  | .error _ => false

/-- The capability sets of a ground motion model, and also the class-level
attribute record of the MultiGMPE class: the five set-valued attributes
its constructor updates in place. -/
structure CapSets where
  DEFINED_FOR_INTENSITY_MEASURE_TYPES : Finset Nat
  DEFINED_FOR_STANDARD_DEVIATION_TYPES : Finset Nat
  REQUIRES_SITES_PARAMETERS : Finset Nat
  REQUIRES_RUPTURE_PARAMETERS : Finset Nat
  REQUIRES_DISTANCES : Finset Nat
  deriving DecidableEq

/-- Token for const.StdDev.TOTAL. -/
def stdDevTotal : Nat := 0

/-- Token for the rupture parameter mag. -/
def magParam : Nat := 0

/-- The class-level attribute record of MultiGMPE as defined in the class
body: no intensity measure types, the total standard deviation, no site
parameters, the magnitude rupture parameter, no distances. -/
def multiGMPEClassAttrs : CapSets :=
  { DEFINED_FOR_INTENSITY_MEASURE_TYPES := ∅,
    DEFINED_FOR_STANDARD_DEVIATION_TYPES := {stdDevTotal},
    REQUIRES_SITES_PARAMETERS := ∅,
    REQUIRES_RUPTURE_PARAMETERS := {magParam},
    REQUIRES_DISTANCES := ∅ }

/-- The per-instance state of a MultiGMPE: the only attribute the
constructor stores on the instance itself is gsim_by_imt. -/
structure MultiInst where
  gsim_by_imt : List (Nat × CapSets)
  deriving DecidableEq

/-- MultiGMPE.__init__, with the Python attribute semantics made
explicit: self.SET.update(...) mutates the class-level sets (the instance
has no own attribute of those names), so the constructor takes the current
class attribute record and returns the updated one together with the
constructed instance; a failed IMT support check raises ValueError after
the updates of the earlier items have already been applied. -/
def multiGMPE_init (imtClassOf : Nat → Nat) :
    CapSets → List (Nat × CapSets) →
    CapSets × Except String MultiInst
  | cls, [] => (cls, .ok { gsim_by_imt := [] })
  | cls, (imt, gsim) :: rest =>
    if imtClassOf imt ∉ gsim.DEFINED_FOR_INTENSITY_MEASURE_TYPES then
      (cls, .error "IMT not supported")
    else
      let cls2 : CapSets :=
        { DEFINED_FOR_INTENSITY_MEASURE_TYPES :=
            cls.DEFINED_FOR_INTENSITY_MEASURE_TYPES ∪
              gsim.DEFINED_FOR_INTENSITY_MEASURE_TYPES,
          DEFINED_FOR_STANDARD_DEVIATION_TYPES :=
            cls.DEFINED_FOR_STANDARD_DEVIATION_TYPES ∪
              gsim.DEFINED_FOR_STANDARD_DEVIATION_TYPES,
          REQUIRES_SITES_PARAMETERS :=
            cls.REQUIRES_SITES_PARAMETERS ∪
              gsim.REQUIRES_SITES_PARAMETERS,
          REQUIRES_RUPTURE_PARAMETERS :=
            cls.REQUIRES_RUPTURE_PARAMETERS ∪
              gsim.REQUIRES_RUPTURE_PARAMETERS,
          REQUIRES_DISTANCES :=
            cls.REQUIRES_DISTANCES ∪ gsim.REQUIRES_DISTANCES }
      let res := multiGMPE_init imtClassOf cls2 rest
      (res.1,
        match res.2 with
        | .ok inst => .ok { gsim_by_imt := (imt, gsim) :: inst.gsim_by_imt }
        | .error e => .error e)

/-- The capability sets observed through a MultiGMPE instance: Python
attribute lookup on the instance finds no own attribute of those names
and falls back to the class-level record, so the observation reads the
class attribute record, whatever instance it is read through. -/
def observedCaps (cls : CapSets) (_inst : MultiInst) : CapSets := cls

/-- The fieldwise union of two capability records, the net effect of one
iteration of the constructor loop on the class attribute record. -/
def unionCaps (a b : CapSets) : CapSets :=
  { DEFINED_FOR_INTENSITY_MEASURE_TYPES :=
      a.DEFINED_FOR_INTENSITY_MEASURE_TYPES ∪
        b.DEFINED_FOR_INTENSITY_MEASURE_TYPES,
    DEFINED_FOR_STANDARD_DEVIATION_TYPES :=
      a.DEFINED_FOR_STANDARD_DEVIATION_TYPES ∪
        b.DEFINED_FOR_STANDARD_DEVIATION_TYPES,
    REQUIRES_SITES_PARAMETERS :=
      a.REQUIRES_SITES_PARAMETERS ∪ b.REQUIRES_SITES_PARAMETERS,
    REQUIRES_RUPTURE_PARAMETERS :=
      a.REQUIRES_RUPTURE_PARAMETERS ∪ b.REQUIRES_RUPTURE_PARAMETERS,
    REQUIRES_DISTANCES := a.REQUIRES_DISTANCES ∪ b.REQUIRES_DISTANCES }

/-- Transcendental operations used in concrete evaluations; the claims
relate values as symbolic expressions in the operations, so any
interpretation works, and the identity interpretation keeps the
evaluations computable over the rationals. -/
def opsQ : SciOps ℚ :=
  { expF := fun x => x, logF := fun x => x, loggammaF := fun x => x }

/-- A concrete deterministic random-machinery instance over the rationals
with state the natural numbers: every Poisson draw is one, every uniform
draw is zero, every choice is index zero, every nonparametric occurrence
draw is one. -/
def rngA : RNG ℚ Nat :=
  { seedFn := fun n => n,
    poissonList := fun s lam => (lam.map (fun _ => 1), s + 1),
    randomList := fun s n => (List.replicate n 0, s + 1),
    choiceFn := fun s _ => (0, s),
    sampleOcc := fun s _ n => (List.replicate n 1, s + 1),
    poisson_len := by intro s lam; simp,
    random_len := by intro s n; simp,
    sampleOcc_len := by intro s r n; simp,
    choice_lt := by intro s n h; simpa using h }

/-- A concrete random-machinery instance whose nonparametric occurrence
draws are all three and whose uniform draws all fall exactly at one half,
exercising the boundary of the mutex thinning comparison. -/
def rngB : RNG ℚ Nat :=
  { seedFn := fun n => n,
    poissonList := fun s lam => (lam.map (fun _ => 1), s),
    randomList := fun s n => (List.replicate n (1 / 2), s),
    choiceFn := fun s _ => (0, s),
    sampleOcc := fun s _ n => (List.replicate n 3, s),
    poisson_len := by intro s lam; simp,
    random_len := by intro s n; simp,
    sampleOcc_len := by intro s r n; simp,
    choice_lt := by intro s n h; simpa using h }

/-- A concrete nonparametric rupture with a constant occurrence count
distribution. -/
def npr0 : NPRupture ℚ :=
  { proba_number_of_occurrences := fun _ => 1 }

/-- A concrete parametric rupture of occurrence rate two. -/
def c1rup : PRupture ℚ := { occurrence_rate := 2 }

/-- A concrete parametric source with one rupture. -/
def c5src : ParametricSrc ℚ :=
  { ruptures := [c1rup], count_ruptures := 1, seed := 7 }

/-- A concrete UCERF source whose site filtering always discards every
site. -/
def c6src : UcerfSrc ℚ :=
  { src_group_id := 3, source_id := 11, filterFn := fun _ _ _ => ([], []) }

/-- A concrete UCERF source whose site filtering keeps the rupture subset
and one site. -/
def c10src : UcerfSrc ℚ :=
  { src_group_id := 4, source_id := 12,
    filterFn := fun ri _ _ => (ri, [9]) }

/-- A concrete source node declaring an investigation time of two with no
start date. -/
def c7nodeN : UcerfNode ℚ :=
  { filename := "f.xml", node_id := 3, startDate := none,
    investigationTime := some 2, minMag := 5 }

/-- A concrete source node declaring both a start date and an
investigation time of two. -/
def c7nodeW : UcerfNode ℚ :=
  { filename := "f.xml", node_id := 3, startDate := some "01/01/2000",
    investigationTime := some 2, minMag := 5 }

/-- A concrete constituent ground motion model supporting intensity
measure type one. -/
def c9gA : CapSets :=
  { DEFINED_FOR_INTENSITY_MEASURE_TYPES := {1},
    DEFINED_FOR_STANDARD_DEVIATION_TYPES := ∅,
    REQUIRES_SITES_PARAMETERS := ∅,
    REQUIRES_RUPTURE_PARAMETERS := ∅,
    REQUIRES_DISTANCES := ∅ }

/-- A concrete constituent ground motion model supporting intensity
measure type two. -/
def c9gB : CapSets :=
  { DEFINED_FOR_INTENSITY_MEASURE_TYPES := {2},
    DEFINED_FOR_STANDARD_DEVIATION_TYPES := ∅,
    REQUIRES_SITES_PARAMETERS := ∅,
    REQUIRES_RUPTURE_PARAMETERS := ∅,
    REQUIRES_DISTANCES := ∅ }

/-- The class attribute record after the first concrete MultiGMPE
construction. -/
def c9cls1 : CapSets :=
  (multiGMPE_init id multiGMPEClassAttrs [(1, c9gA)]).1

/-- The first concrete MultiGMPE instance. -/
def c9m1 : MultiInst := { gsim_by_imt := [(1, c9gA)] }

/-- The class attribute record after the second concrete MultiGMPE
construction. -/
def c9cls2 : CapSets := (multiGMPE_init id c9cls1 [(2, c9gB)]).1

theorem withIds_length {A : Type} (n : Nat) (l : List A) :
    (withIds n l).length = l.length := by
  induction l generalizing n with
  | nil => rfl
  | cons a as ih => simp [withIds, ih]

theorem withIds_map_fst {A : Type} (n : Nat) (l : List A) :
    (withIds n l).map Prod.fst = List.range' n l.length := by
  induction l generalizing n with
  | nil => rfl
  | cons a as ih => simp [withIds, List.range'_succ, ih]

/-- C4: with a fixed serial and fixed effective repeat count, two
invocations of sample_ruptures give identical output regardless of the
incoming process-wide random state, because the state is reseeded from
the serial at the start of each invocation; and the rupture ids are
assigned consecutively from the serial in yield order. -/
theorem c4_sample_ruptures_reproducible {K S : Type} [LinearOrderedField K]
    (g : RNG K S) (ops : SciOps K) (eff_num_ses : Nat) (src : Src K)
    (s1 s2 : S) :
    sample_ruptures g ops eff_num_ses src s1 =
      sample_ruptures g ops eff_num_ses src s2 ∧
    (sample_ruptures g ops eff_num_ses src s1).map Prod.fst =
      List.range' src.serial
        (sample_ruptures g ops eff_num_ses src s1).length := by
  constructor
  · rfl
  · simp only [sample_ruptures]
    rw [withIds_map_fst, withIds_length]

/-- C8: the ProbabilityMap merge operator is commutative and associative
and the all-zero map is its identity element. -/
theorem c8_merge_algebra {K : Type} [LinearOrderedField K]
    (A B C : PoeArray K) :
    mergeMap A B = mergeMap B A ∧
    mergeMap (mergeMap A B) C = mergeMap A (mergeMap B C) ∧
    mergeMap (zeroPoeArray K) A = A := by
  refine ⟨?_, ?_, ?_⟩ <;> funext site lvl <;>
    simp only [mergeMap, mergePoe, zeroPoeArray] <;> ring

/-- C6: when distance filtering leaves no site, the chunk task returns
the identity ProbabilityMap with zero effective ruptures for the source
group, normally and independently of the ground motion evaluation layer
(which is therefore never consulted). -/
theorem c6_empty_sites_identity {K : Type} [LinearOrderedField K]
    (f1 f2 : List Nat → List Nat → PoeArray K) (d1 d2 : K)
    (rupset_idx : List Nat) (src : UcerfSrc K) (sitecol : List Nat)
    (max_dist : K)
    (h : (src.filterFn rupset_idx sitecol max_dist).2 = []) :
    ucerf_classical_hazard_by_rupture_set f1 d1 rupset_idx src sitecol
        max_dist = emptyPMapFor K src ∧
    (ucerf_classical_hazard_by_rupture_set f1 d1 rupset_idx src sitecol
        max_dist).poes = zeroPoeArray K ∧
    (ucerf_classical_hazard_by_rupture_set f1 d1 rupset_idx src sitecol
        max_dist).eff_ruptures = [(src.src_group_id, 0)] ∧
    ucerf_classical_hazard_by_rupture_set f1 d1 rupset_idx src sitecol
        max_dist =
      ucerf_classical_hazard_by_rupture_set f2 d2 rupset_idx src sitecol
        max_dist := by
  have h0 : ucerf_classical_hazard_by_rupture_set f1 d1 rupset_idx src
      sitecol max_dist = emptyPMapFor K src := by
    simp [ucerf_classical_hazard_by_rupture_set, h]
  have h0b : ucerf_classical_hazard_by_rupture_set f2 d2 rupset_idx src
      sitecol max_dist = emptyPMapFor K src := by
    simp [ucerf_classical_hazard_by_rupture_set, h]
  exact ⟨h0, by rw [h0]; rfl, by rw [h0]; rfl, h0.trans h0b.symm⟩

/-- C6 witness: with a concrete source whose filtering discards all
sites, the task returns the identity map. -/
theorem c6_witness :
    (c6src.filterFn [1, 2] [0] 10).2 = [] ∧
    ucerf_classical_hazard_by_rupture_set (fun _ _ => zeroPoeArray ℚ) 0
        [1, 2] c6src [0] 10 = emptyPMapFor ℚ c6src :=
  ⟨rfl,
    (c6_empty_sites_identity (fun _ _ => zeroPoeArray ℚ)
      (fun _ _ => zeroPoeArray ℚ) 0 0 [1, 2] c6src [0] 10 rfl).1⟩

/-- C10: with surviving sites, the effective rupture count recorded for
the source group is the number of rupture indices in the site-filtered
subset, independent of the ground motion evaluation (so combinations that
contribute zero probability still count). -/
theorem c10_eff_ruptures_count {K : Type} [LinearOrderedField K]
    (f1 f2 : List Nat → List Nat → PoeArray K) (d1 d2 : K)
    (rupset_idx : List Nat) (src : UcerfSrc K) (sitecol : List Nat)
    (max_dist : K)
    (h : (src.filterFn rupset_idx sitecol max_dist).2 ≠ []) :
    (ucerf_classical_hazard_by_rupture_set f1 d1 rupset_idx src sitecol
        max_dist).eff_ruptures =
      [(src.src_group_id,
        (src.filterFn rupset_idx sitecol max_dist).1.length)] ∧
    (ucerf_classical_hazard_by_rupture_set f1 d1 rupset_idx src sitecol
        max_dist).eff_ruptures =
      (ucerf_classical_hazard_by_rupture_set f2 d2 rupset_idx src sitecol
        max_dist).eff_ruptures ∧
    ∀ (ri sites : List Nat),
      (hazard_curves_per_rupture_subset f1 d1 ri src sites).eff_ruptures =
        [(src.src_group_id, ri.length)] := by
  have hl : (src.filterFn rupset_idx sitecol max_dist).2.length ≠ 0 := by
    simpa [List.length_eq_zero] using h
  refine ⟨?_, ?_, ?_⟩
  · simp [ucerf_classical_hazard_by_rupture_set,
      hazard_curves_per_rupture_subset, hl]
  · simp [ucerf_classical_hazard_by_rupture_set,
      hazard_curves_per_rupture_subset, hl]
  · intro ri sites; rfl

/-- C10 witness: with a concrete source keeping one site and the whole
subset, the recorded effective rupture count is the subset length. -/
theorem c10_witness :
    (c10src.filterFn [1, 2, 3] [0] 10).2 ≠ [] ∧
    (ucerf_classical_hazard_by_rupture_set (fun _ _ => zeroPoeArray ℚ) 0
        [1, 2, 3] c10src [0] 10).eff_ruptures = [(4, 3)] :=
  ⟨by decide,
    (c10_eff_ruptures_count (fun _ _ => zeroPoeArray ℚ)
      (fun _ _ => zeroPoeArray ℚ) 0 0 [1, 2, 3] c10src [0] 10
      (by decide)).1⟩

/-- C7 counterexample: a node declaring an investigation time different
from the configured time span but no start date converts without error,
refuting the claim that any declared mismatch raises. -/
theorem c7_counterexample :
    convert_UCERFSource (1 : ℚ) "d" c7nodeN =
      .ok { source_file := "d/f.xml", control_id := 3, time_span := 1,
            start_date := none, min_mag := 5 } ∧
    c7nodeN.investigationTime = some 2 ∧ (2 : ℚ) ≠ 1 :=
  ⟨rfl, rfl, by norm_num⟩

/-- C7 amended: for a node declaring both a start date and an
investigation time, conversion raises ValueError exactly when the
declared investigation time differs from the configured time span, and
succeeds when they agree; a node without a start date converts without
any check. -/
theorem c7_investigation_time_check {K : Type} [LinearOrderedField K]
    (span : K) (dirname : String) (node : UcerfNode K) (sd : String)
    (inv : K)
    (h1 : node.startDate = some sd)
    (h2 : node.investigationTime = some inv) :
    (inv ≠ span →
      convert_UCERFSource span dirname node = .error invTimeMsg) ∧
    (inv = span →
      convert_UCERFSource span dirname node =
        .ok { source_file := dirname ++ "/" ++ node.filename,
              control_id := node.node_id, time_span := span,
              start_date := some sd, min_mag := node.minMag }) ∧
    ∀ node2 : UcerfNode K, node2.startDate = none →
      isOkE (convert_UCERFSource span dirname node2) = true := by
  refine ⟨?_, ?_, ?_⟩
  · intro hne; simp [convert_UCERFSource, h1, h2, hne]
  · intro he; simp [convert_UCERFSource, h1, h2, he]
  · intro node2 hn
    cases hinv : node2.investigationTime <;>
      simp [convert_UCERFSource, hn, hinv, isOkE]

/-- C7 witness: a concrete node with both attributes and a mismatching
investigation time is refused with the ValueError message. -/
theorem c7_witness :
    c7nodeW.startDate = some "01/01/2000" ∧
    c7nodeW.investigationTime = some 2 ∧
    convert_UCERFSource (1 : ℚ) "d" c7nodeW = .error invTimeMsg :=
  ⟨rfl, rfl,
    (c7_investigation_time_check 1 "d" c7nodeW "01/01/2000" 2 rfl rfl).1
      (by norm_num)⟩

/-- C9 counterexample: constructing a second MultiGMPE changes the
capability sets observed through the first instance, because the
constructor updates the class-level shared sets in place. -/
theorem c9_counterexample :
    (multiGMPE_init id multiGMPEClassAttrs [(1, c9gA)]).2 = .ok c9m1 ∧
    c9cls1.DEFINED_FOR_INTENSITY_MEASURE_TYPES = {1} ∧
    c9cls2.DEFINED_FOR_INTENSITY_MEASURE_TYPES = {1, 2} ∧
    observedCaps c9cls2 c9m1 ≠ observedCaps c9cls1 c9m1 := by
  refine ⟨rfl, by decide, by decide, by decide⟩

theorem multiGMPE_init_fst_eq (f : Nat → Nat)
    (pairs : List (Nat × CapSets)) :
    ∀ cls : CapSets, isOkE (multiGMPE_init f cls pairs).2 = true →
      (multiGMPE_init f cls pairs).1 =
        pairs.foldl (fun c p => unionCaps c p.2) cls := by
  induction pairs with
  | nil => intro cls _; rfl
  | cons p rest ih =>
      intro cls h
      obtain ⟨imt, gsim⟩ := p
      by_cases hm : f imt ∉ gsim.DEFINED_FOR_INTENSITY_MEASURE_TYPES
      · exfalso
        simp [multiGMPE_init, hm, isOkE] at h
      · have hrw : multiGMPE_init f cls ((imt, gsim) :: rest) =
            ((multiGMPE_init f (unionCaps cls gsim) rest).1,
              match (multiGMPE_init f (unionCaps cls gsim) rest).2 with
              | .ok inst =>
                  .ok { gsim_by_imt := (imt, gsim) :: inst.gsim_by_imt }
              | .error e => .error e) := by
          simp [multiGMPE_init, hm, unionCaps]
        have hok : isOkE (multiGMPE_init f (unionCaps cls gsim) rest).2 =
            true := by
          rw [hrw] at h
          revert h
          cases (multiGMPE_init f (unionCaps cls gsim) rest).2 <;>
            simp [isOkE]
        rw [hrw]
        simpa using ih (unionCaps cls gsim) hok

theorem foldl_unionCaps_mono (pairs : List (Nat × CapSets)) :
    ∀ cls : CapSets,
      ∀ x ∈ cls.DEFINED_FOR_INTENSITY_MEASURE_TYPES,
        x ∈ (pairs.foldl (fun c p => unionCaps c p.2)
            cls).DEFINED_FOR_INTENSITY_MEASURE_TYPES := by
  induction pairs with
  | nil => intro cls x hx; simpa using hx
  | cons p rest ih =>
      intro cls x hx
      simp only [List.foldl_cons]
      exact ih (unionCaps cls p.2) x
        (by simp only [unionCaps, Finset.mem_union]; exact Or.inl hx)

/-- C9 amended: a successful MultiGMPE construction replaces the
class-level capability record by its fieldwise union with all the
constituent capability records, so the capability sets are accumulated in
shared class state (monotonically growing), not stored privately per
instance. -/
theorem c9_shared_class_state_update (f : Nat → Nat) (cls : CapSets)
    (pairs : List (Nat × CapSets))
    (h : isOkE (multiGMPE_init f cls pairs).2 = true) :
    (multiGMPE_init f cls pairs).1 =
      pairs.foldl (fun c p => unionCaps c p.2) cls ∧
    ∀ x ∈ cls.DEFINED_FOR_INTENSITY_MEASURE_TYPES,
      x ∈ (multiGMPE_init f cls
          pairs).1.DEFINED_FOR_INTENSITY_MEASURE_TYPES := by
  have he := multiGMPE_init_fst_eq f pairs cls h
  exact ⟨he, by rw [he]; exact foldl_unionCaps_mono pairs cls⟩

/-- C9 witness: a concrete successful construction, with the class
record equal to the accumulated union. -/
theorem c9_witness :
    isOkE (multiGMPE_init id multiGMPEClassAttrs [(1, c9gA)]).2 = true ∧
    (multiGMPE_init id multiGMPEClassAttrs [(1, c9gA)]).1 =
      [(1, c9gA)].foldl (fun c p => unionCaps c p.2) multiGMPEClassAttrs :=
  ⟨by decide,
    (c9_shared_class_state_update id multiGMPEClassAttrs [(1, c9gA)]
      (by decide)).1⟩

/-- C5: requesting a mutex rupture draw from a parametric source fails
with the precondition violation message; without the mutex flag the
generator is seeded from the source seed, an index below countRuptures is
drawn, and the rupture at that index of iter_ruptures is returned. -/
theorem c5_get_one_rupture_spec {K S : Type} [LinearOrderedField K]
    (g : RNG K S) (src : ParametricSrc K)
    (hc : src.count_ruptures = src.ruptures.length)
    (hp : 0 < src.count_ruptures) :
    get_one_rupture g src true = .error mutexMsg ∧
    ∃ h : (g.choiceFn (g.seedFn src.seed) src.count_ruptures).1 <
        src.ruptures.length,
      get_one_rupture g src false =
        .ok (some (src.ruptures.get
          ⟨(g.choiceFn (g.seedFn src.seed) src.count_ruptures).1, h⟩)) := by
  constructor
  · rfl
  · have hlt := g.choice_lt (g.seedFn src.seed) src.count_ruptures hp
    have hlt2 : (g.choiceFn (g.seedFn src.seed) src.count_ruptures).1 <
        src.ruptures.length := hc ▸ hlt
    refine ⟨hlt2, ?_⟩
    simp [get_one_rupture, List.get?_eq_get hlt2]

/-- C5 witness: on a concrete parametric source the mutex request errors
and the plain request returns the rupture at the drawn index. -/
theorem c5_witness :
    c5src.count_ruptures = c5src.ruptures.length ∧
    0 < c5src.count_ruptures ∧
    (get_one_rupture rngA c5src true = .error mutexMsg ∧
     ∃ h : (rngA.choiceFn (rngA.seedFn c5src.seed)
         c5src.count_ruptures).1 < c5src.ruptures.length,
       get_one_rupture rngA c5src false =
         .ok (some (c5src.ruptures.get
           ⟨(rngA.choiceFn (rngA.seedFn c5src.seed)
               c5src.count_ruptures).1, h⟩))) :=
  ⟨rfl, by decide, c5_get_one_rupture_spec rngA c5src rfl (by decide)⟩

theorem faultZip_mem {K : Type} [LinearOrderedField K] (ops : SciOps K)
    (span effK : K) :
    ∀ (rl : List (PRupture K)) (ks : List Nat) (r : PRupture K) (k : Nat)
      (p : K),
      (r, k, p) ∈ rl.zip (ks.zip
        (List.zipWith (fun k L => pointProba ops L k) ks
          (rl.map (fun r => r.occurrence_rate * span * effK)))) →
      p = pointProba ops (r.occurrence_rate * span * effK) k := by
  intro rl
  induction rl with
  | nil => intro ks r k p h; simp at h
  | cons a as ih =>
      intro ks r k p h
      cases ks with
      | nil => simp at h
      | cons k0 ks2 =>
          simp only [List.map_cons, List.zipWith_cons_cons,
            List.zip_cons_cons, List.mem_cons, Prod.mk.injEq] at h
          rcases h with ⟨rfl, rfl, rfl⟩ | h
          · rfl
          · exact ih ks2 r k p h

theorem multiZip_mem {K : Type} [LinearOrderedField K] (ops : SciOps K)
    (span effK : K) :
    ∀ (args : List (RupArg K)) (ks : List Nat) (k : Nat) (a : RupArg K)
      (rt p : K),
      (k, a, rt, p) ∈ ks.zip (args.zip ((args.map RupArg.rate).zip
        (List.zipWith (fun k L => pointProba ops L k) ks
          ((args.map RupArg.rate).map (fun r => r * span * effK))))) →
      rt = a.rate ∧ p = pointProba ops (a.rate * span * effK) k := by
  intro args
  induction args with
  | nil => intro ks k a rt p h; simp at h
  | cons b bs ih =>
      intro ks k a rt p h
      cases ks with
      | nil => simp at h
      | cons k0 ks2 =>
          simp only [List.map_cons, List.zipWith_cons_cons,
            List.zip_cons_cons, List.mem_cons, Prod.mk.injEq] at h
          rcases h with ⟨rfl, rfl, rfl, rfl⟩ | h
          · exact ⟨rfl, rfl⟩
          · exact ih ks2 k a rt p h

/-- C1: in both Poissonian branches, every yielded point probability is
exactly exp(k * log L - L - loggamma(k + 1)) for the drawn count k and
the effective Poisson parameter L = rate * time_span * eff_num_ses of the
yielded rupture. -/
theorem c1_poisson_point_probability {K S : Type} [LinearOrderedField K]
    (g : RNG K S) (ops : SciOps K) (eff_num_ses : Nat) :
    (∀ (time_span : K) (rups : List (PRupture K)) (s : S)
       (em : Emitted K) (k : Nat) (p : K),
       (em, k, p) ∈ (poissonFault g ops time_span eff_num_ses rups s).1 →
       p = pointProba ops
         (em.rateOf * time_span * (eff_num_ses : K)) k) ∧
    (∀ (tom : PoissonTOM K) (min_mag : K) (subs : List (PointSub K))
       (s : S) (em : Emitted K) (k : Nat) (p : K),
       (em, k, p) ∈
         (poissonMulti g ops tom eff_num_ses min_mag subs s).1 →
       p = pointProba ops
         (em.rateOf * tom.time_span * (eff_num_ses : K)) k) := by
  constructor
  · intro time_span rups s em k p h
    have h2 : (em, k, p) ∈
        (faultDraws g ops time_span eff_num_ses rups s).1 :=
      List.mem_of_mem_filter h
    simp only [faultDraws, List.mem_map] at h2
    obtain ⟨t, ht, hemit⟩ := h2
    obtain ⟨he, hk, hp⟩ : Emitted.par t.1 = em ∧ t.2.1 = k ∧ t.2.2 = p := by
      simpa [Prod.ext_iff] using hemit
    subst he hk hp
    have := faultZip_mem ops time_span (eff_num_ses : K) rups
      (g.poissonList s (rups.map
        (fun r => r.occurrence_rate * time_span * (eff_num_ses : K)))).1
      t.1 t.2.1 t.2.2 ht
    simpa [Emitted.rateOf] using this
  · intro tom min_mag subs s em k p h
    simp only [poissonMulti, List.mem_filterMap] at h
    obtain ⟨t, ht, hemit⟩ := h
    by_cases hz : t.1 = 0
    · simp [hz] at hemit
    · simp only [hz, ne_eq, not_false_eq_true, if_true, if_pos,
        Option.some.injEq] at hemit
      obtain ⟨he, hk, hp⟩ :
          mkPtRupture tom t.2.1 t.2.2.1 = em ∧ t.1 = k ∧ t.2.2.2 = p := by
        simpa [Prod.ext_iff] using hemit
      have hm := multiZip_mem ops tom.time_span (eff_num_ses : K)
        (buildRupArgs min_mag subs)
        (g.poissonList s (((buildRupArgs min_mag subs).map
            RupArg.rate).map
          (fun r => r * tom.time_span * (eff_num_ses : K)))).1
        t.1 t.2.1 t.2.2.1 t.2.2.2 ht
      obtain ⟨hrt, hpp⟩ := hm
      subst he hk hp
      rw [hpp, hrt]
      simp [mkPtRupture, Emitted.rateOf]

/-- C1 witness: a concrete fault source with one rupture of rate two,
time span one and one effective repeat emits that rupture with the
Poisson point probability at L = 2 * 1 * 1. -/
theorem c1_witness :
    ((Emitted.par c1rup, 1,
        pointProba opsQ (c1rup.occurrence_rate * 1 * ((1 : Nat) : ℚ)) 1) ∈
      (poissonFault rngA opsQ 1 1 [c1rup] 0).1) ∧
    pointProba opsQ (c1rup.occurrence_rate * 1 * ((1 : Nat) : ℚ)) 1 =
      pointProba opsQ
        ((Emitted.par c1rup).rateOf * 1 * ((1 : Nat) : ℚ)) 1 := by
  have hmem : (Emitted.par c1rup, 1,
      pointProba opsQ (c1rup.occurrence_rate * 1 * ((1 : Nat) : ℚ)) 1) ∈
      (poissonFault rngA opsQ 1 1 [c1rup] 0).1 := by
    simp [poissonFault, faultDraws, rngA]
  exact ⟨hmem,
    (c1_poisson_point_probability rngA opsQ 1).1 1 [c1rup] 0
      (Emitted.par c1rup) 1 _ hmem⟩

/-- C2 counterexample: a uniform draw exactly equal to the mutex weight
does not exceed it, yet the code zeroes the occurrence (the kept
condition is draw strictly below the weight): with base occurrences [3]
and draw 1/2 at weight 1/2 the repeat is zeroed and the rupture is
dropped. -/
theorem c2_counterexample :
    mutexThin (1 / 2 : ℚ) [3] [1 / 2] = [0] ∧
    ¬ ((1 / 2 : ℚ) > 1 / 2) ∧
    (npLoop rngB 1 (1 / 2 : ℚ) [npr0] 0).1 = [] := by
  refine ⟨by norm_num [mutexThin], by norm_num, ?_⟩
  norm_num [npLoop, npThinned, rngB, mutexThin]

theorem npDraws_plain_of_ge {K S : Type} [LinearOrderedField K]
    (g : RNG K S) (eff_num_ses : Nat) (w : K) (hw : ¬ w < 1) :
    ∀ (data : List (NPRupture K)) (s : S),
      npDraws g eff_num_ses w data s = npDrawsPlain g eff_num_ses data s := by
  intro data
  induction data with
  | nil => intro s; rfl
  | cons r rs ih =>
      intro s
      simp [npDraws, npDrawsPlain, npThinned, hw, ih]

/-- C2 amended: during nonparametric sampling with a declared mutex
weight below one, one uniform value is drawn per repeat and a repeat is
zeroed exactly when its draw is not strictly below the weight (draws at
or above w zero the occurrence regardless of the base occurrence
distribution, draws strictly below w leave it unchanged); with weight one
or no declared weight the occurrences are left unchanged. -/
theorem c2_mutex_thinning {K S : Type} [LinearOrderedField K]
    (g : RNG K S) (eff_num_ses : Nat) (w : K) :
    (∀ (occs : List Nat) (aux : List K) (i : Nat)
       (h1 : i < occs.length) (h2 : i < aux.length)
       (hm : i < (mutexThin w occs aux).length),
       (w ≤ aux[i] → (mutexThin w occs aux)[i] = 0) ∧
       (aux[i] < w → (mutexThin w occs aux)[i] = occs[i])) ∧
    (∀ (r : NPRupture K) (s : S), w < 1 →
       (npDraws g eff_num_ses w [r] s).1 =
         [(r, (mutexThin w (g.sampleOcc s r eff_num_ses).1
             (g.randomList (g.sampleOcc s r eff_num_ses).2
               eff_num_ses).1).sum,
           r.proba_number_of_occurrences
             (mutexThin w (g.sampleOcc s r eff_num_ses).1
               (g.randomList (g.sampleOcc s r eff_num_ses).2
                 eff_num_ses).1).sum)] ∧
       (g.randomList (g.sampleOcc s r eff_num_ses).2
           eff_num_ses).1.length = eff_num_ses) ∧
    (¬ w < 1 → ∀ (data : List (NPRupture K)) (s : S),
       npDraws g eff_num_ses w data s =
         npDrawsPlain g eff_num_ses data s) := by
  refine ⟨?_, ?_, ?_⟩
  · intro occs aux i h1 h2 hm
    constructor
    · intro hw
      simp [mutexThin, List.getElem_zipWith, not_lt.mpr hw]
    · intro hw
      simp [mutexThin, List.getElem_zipWith, hw]
  · intro r s hw
    exact ⟨by simp [npDraws, npThinned, hw], g.random_len _ _⟩
  · intro hw data s
    exact npDraws_plain_of_ge g eff_num_ses w hw data s

/-- C2 witness: at weight one half, a draw of one quarter (strictly
below) keeps the occurrence three, and at the boundary random machinery
the single repeat is zeroed so the summed count is zero. -/
theorem c2_witness :
    (∃ hb : 0 < (mutexThin (1 / 2 : ℚ) [3] [1 / 4]).length,
       (mutexThin (1 / 2 : ℚ) [3] [1 / 4])[0] = 3) ∧
    (npDraws rngB 1 (1 / 2 : ℚ) [npr0] 0).1 =
      [(npr0, 0, npr0.proba_number_of_occurrences 0)] := by
  constructor
  · refine ⟨by decide, ?_⟩
    have h := ((c2_mutex_thinning rngB 1 (1 / 2 : ℚ)).1 [3] [1 / 4] 0
      (by decide) (by decide) (by decide)).2 (by norm_num)
    simpa using h
  · have h := ((c2_mutex_thinning rngB 1 (1 / 2 : ℚ)).2.1 npr0 0
      (by norm_num)).1
    simpa [rngB, mutexThin] using h

theorem zipMapFstF {α β γ : Type} (f : α → γ) :
    ∀ (l1 : List α) (l2 : List β), l1.length ≤ l2.length →
      (l1.zip l2).map (fun t => f t.1) = l1.map f := by
  intro l1
  induction l1 with
  | nil => intro l2 _; rfl
  | cons a as ih =>
      intro l2 h
      cases l2 with
      | nil => simp at h
      | cons b bs =>
          simp only [List.zip_cons_cons, List.map_cons]
          rw [ih bs (by simpa using h)]

theorem zip_zip_map_mid {α β γ : Type} :
    ∀ (l1 : List α) (l2 : List β) (l3 : List γ),
      l1.length = l2.length → l2.length ≤ l3.length →
      (l1.zip (l2.zip l3)).map (fun t => t.2.1) = l2 := by
  intro l1
  induction l1 with
  | nil =>
      intro l2 l3 h _
      cases l2 with
      | nil => rfl
      | cons b bs => simp at h
  | cons a as ih =>
      intro l2 l3 h h2
      cases l2 with
      | nil => simp at h
      | cons b bs =>
          cases l3 with
          | nil => simp at h2
          | cons c cs =>
              simp only [List.zip_cons_cons, List.map_cons]
              rw [ih bs cs (by simpa using h) (by simpa using h2)]

theorem filterMap_guard_eq {α β : Type} (f : α → β) (key : α → Nat) :
    ∀ l : List α,
      l.filterMap (fun a => if key a ≠ 0 then some (f a) else none) =
      (l.filter (fun a => key a ≠ 0)).map f := by
  intro l
  induction l with
  | nil => rfl
  | cons a as ih =>
      by_cases h : key a = 0
      · rw [List.filterMap_cons, List.filter_cons,
          if_neg (show ¬(key a ≠ 0) by simp [h]), if_neg (by simp [h])]
        exact ih
      · rw [List.filterMap_cons, List.filter_cons, if_pos h,
          if_pos (by simp [h])]
        simp only [List.map_cons]
        exact congrArg (List.cons (f a)) ih

theorem faultDraws_one_per_rupture {K S : Type} [LinearOrderedField K]
    (g : RNG K S) (ops : SciOps K) (span : K) (eff_num_ses : Nat)
    (rups : List (PRupture K)) (s : S) :
    (faultDraws g ops span eff_num_ses rups s).1.map (fun t => t.1) =
      rups.map Emitted.par ∧
    (faultDraws g ops span eff_num_ses rups s).1.length = rups.length := by
  have hocc : (g.poissonList s (rups.map
      (fun r => r.occurrence_rate * span * (eff_num_ses : K)))).1.length =
      rups.length := by
    rw [g.poisson_len, List.length_map]
  constructor
  · simp only [faultDraws, List.map_map]
    exact zipMapFstF Emitted.par rups _
      (by simp [List.length_zip, List.length_zipWith, hocc])
  · simp [faultDraws, List.length_zip, List.length_zipWith, hocc]

theorem multiDraws_one_per_combination {K S : Type} [LinearOrderedField K]
    (g : RNG K S) (ops : SciOps K) (span : K) (eff_num_ses : Nat)
    (min_mag : K) (subs : List (PointSub K)) (s : S) :
    (multiDraws g ops span eff_num_ses min_mag subs s).1.map
        (fun t => t.2.1) = buildRupArgs min_mag subs ∧
    (multiDraws g ops span eff_num_ses min_mag subs s).1.length =
      (buildRupArgs min_mag subs).length := by
  constructor
  · refine zip_zip_map_mid _ _ _ ?_ ?_
    · simp [g.poisson_len]
    · simp [List.length_zip, List.length_zipWith, g.poisson_len]
  · simp [multiDraws, List.length_zip, List.length_zipWith, g.poisson_len]

theorem npLoop_eq_filter {K S : Type} [LinearOrderedField K]
    (g : RNG K S) (eff_num_ses : Nat) (w : K) :
    ∀ (data : List (NPRupture K)) (s : S),
      (npLoop g eff_num_ses w data s).1 =
        ((npDraws g eff_num_ses w data s).1.map
          (fun e => (Emitted.np e.1, e.2.1, e.2.2))).filter
            (fun t => t.2.1 ≠ 0) ∧
      (npLoop g eff_num_ses w data s).2 =
        (npDraws g eff_num_ses w data s).2 := by
  intro data
  induction data with
  | nil => intro s; exact ⟨rfl, rfl⟩
  | cons r rs ih =>
      intro s
      obtain ⟨ih1, ih2⟩ := ih (npThinned g eff_num_ses w r s).2
      constructor
      · simp only [npLoop, npDraws, List.map_cons, List.filter_cons]
        by_cases h : (npThinned g eff_num_ses w r s).1.sum ≠ 0
        · simp [h, ih1]
        · simp [h, ih1]
      · simp only [npLoop, npDraws]
        exact ih2

theorem npDraws_one_per_rupture {K S : Type} [LinearOrderedField K]
    (g : RNG K S) (eff_num_ses : Nat) (w : K) :
    ∀ (data : List (NPRupture K)) (s : S),
      (npDraws g eff_num_ses w data s).1.map (fun e => e.1) = data ∧
      (npDraws g eff_num_ses w data s).1.map (fun e => e.2.2) =
        (npDraws g eff_num_ses w data s).1.map
          (fun e => e.1.proba_number_of_occurrences e.2.1) := by
  intro data
  induction data with
  | nil => intro s; exact ⟨rfl, rfl⟩
  | cons r rs ih =>
      intro s
      obtain ⟨ih1, ih2⟩ := ih (npThinned g eff_num_ses w r s).2
      constructor
      · simp only [npDraws, List.map_cons]
        rw [ih1]
      · simp only [npDraws, List.map_cons]
        rw [ih2]

/-- C3: in all sampling regimes the sampler output is the
positive-count filter of a draw list holding exactly one
(rupture, count, probability) entry per candidate rupture in source
order, so each rupture with a strictly positive total count is yielded
exactly once and ruptures with count zero are dropped; in the
nonparametric regime each entry carries the summed per-repeat occurrences
and the rupture's occurrence-count probability of that sum. -/
theorem c3_one_entry_per_surviving_rupture {K S : Type}
    [LinearOrderedField K] (g : RNG K S) (ops : SciOps K)
    (eff_num_ses : Nat) :
    (∀ (time_span : K) (rups : List (PRupture K)) (s : S),
      (poissonFault g ops time_span eff_num_ses rups s).1 =
        (faultDraws g ops time_span eff_num_ses rups s).1.filter
          (fun t => t.2.1 ≠ 0) ∧
      (faultDraws g ops time_span eff_num_ses rups s).1.map
          (fun t => t.1) = rups.map Emitted.par ∧
      (faultDraws g ops time_span eff_num_ses rups s).1.length =
        rups.length) ∧
    (∀ (tom : PoissonTOM K) (min_mag : K) (subs : List (PointSub K))
       (s : S),
      (poissonMulti g ops tom eff_num_ses min_mag subs s).1 =
        ((multiDraws g ops tom.time_span eff_num_ses min_mag subs
            s).1.filter (fun t => t.1 ≠ 0)).map (fun t =>
              (mkPtRupture tom t.2.1 t.2.2.1, t.1, t.2.2.2)) ∧
      (multiDraws g ops tom.time_span eff_num_ses min_mag subs s).1.map
          (fun t => t.2.1) = buildRupArgs min_mag subs ∧
      (multiDraws g ops tom.time_span eff_num_ses min_mag subs
          s).1.length = (buildRupArgs min_mag subs).length) ∧
    (∀ (w : K) (data : List (NPRupture K)) (s : S),
      (npLoop g eff_num_ses w data s).1 =
        ((npDraws g eff_num_ses w data s).1.map
          (fun e => (Emitted.np e.1, e.2.1, e.2.2))).filter
            (fun t => t.2.1 ≠ 0) ∧
      (npDraws g eff_num_ses w data s).1.map (fun e => e.1) = data ∧
      (npDraws g eff_num_ses w data s).1.map (fun e => e.2.2) =
        (npDraws g eff_num_ses w data s).1.map
          (fun e => e.1.proba_number_of_occurrences e.2.1)) := by
  refine ⟨?_, ?_, ?_⟩
  · intro time_span rups s
    obtain ⟨h1, h2⟩ :=
      faultDraws_one_per_rupture g ops time_span eff_num_ses rups s
    exact ⟨rfl, h1, h2⟩
  · intro tom min_mag subs s
    obtain ⟨h1, h2⟩ := multiDraws_one_per_combination g ops tom.time_span
      eff_num_ses min_mag subs s
    exact ⟨filterMap_guard_eq
      (fun t : Nat × RupArg K × K × K =>
        (mkPtRupture tom t.2.1 t.2.2.1, t.1, t.2.2.2))
      (fun t : Nat × RupArg K × K × K => t.1) _, h1, h2⟩
  · intro w data s
    obtain ⟨h1, _⟩ := npLoop_eq_filter g eff_num_ses w data s
    obtain ⟨h2, h3⟩ := npDraws_one_per_rupture g eff_num_ses w data s
    exact ⟨h1, h2, h3⟩

end OQ
